import Mathlib

/-!
Verification of the batch-assembly, loss-composition and training-orchestration
logic of finetune.py (the ChatTTS fine-tuning driver).

Conventions of the embedding:
  - a batch row's attention mask is a List Bool over time steps;
  - a batch row's audio token grid is a List (List Int): one inner list of
    num_vq codebook ids per time step;
  - tensors of reals are modelled over the rationals; floating-point scalar
    functions that the claims never inspect (per-element cross-entropy,
    L2 normalisation) are abstract function parameters.
-/

namespace Finetune

/-- Sentinel excluded from loss computation, bound from
    transformers LabelSmoother.ignore_index at finetune.py line 27
    (its value in the transformers library is -100, which is also the
    default ignore_index of torch CrossEntropyLoss). -/
def IGNORE_TOKEN_ID : Int := -100

/-- End-of-audio marker id, finetune.py line 164. -/
def AUDIO_EOS_TOKEN_ID : Int := 0

/-- Audio pad id, defined equal to the eos id at finetune.py line 166. -/
def AUDIO_PAD_TOKEN_ID : Int := AUDIO_EOS_TOKEN_ID

/-- One row of finetune.py line 210: quantized audio ids at mask-false time
    steps are overwritten with the pad id in every codebook slot. -/
def padMaskedAudio (mask : List Bool) (ids : List (List Int)) : List (List Int) :=
  List.zipWith (fun m slots => if m then slots else slots.map fun _ => AUDIO_PAD_TOKEN_ID)
    mask ids

/-- One row of finetune.py lines 213-223 and 237: the audio attention mask row is
    widened by one false entry, then the entry at the index equal to the count of
    true entries of the original row is set to true. -/
def extendMaskRow (mask : List Bool) : List Bool :=
  (mask ++ [false]).set (mask.count true) true

/-- One row of finetune.py lines 224-238: the audio id row is widened by one time
    step of pad ids, then the time step at the index equal to the count of true
    entries of the mask row is overwritten with the eos id in every codebook slot. -/
def extendIdsRow (numVq : Nat) (mask : List Bool) (ids : List (List Int)) :
    List (List Int) :=
  (ids ++ [List.replicate numVq AUDIO_PAD_TOKEN_ID]).set (mask.count true)
    (List.replicate numVq AUDIO_EOS_TOKEN_ID)

/-- One row of finetune.py lines 241-247: text ids broadcast across the codebook
    slots, followed by the extended audio ids. -/
def combineIdsRow (numVq : Nat) (textIds : List Int) (extAudio : List (List Int)) :
    List (List Int) :=
  textIds.map (fun t => List.replicate numVq t) ++ extAudio

/-- One row of finetune.py lines 248-251: the combined attention mask row. -/
def combineMaskRow (textMask extMask : List Bool) : List Bool :=
  textMask ++ extMask

/-- One row of finetune.py lines 260-261: labels are a copy of the combined ids
    with every time step whose combined mask entry is false overwritten, in all
    codebook slots, by the ignore sentinel. -/
def labelsRow (mask : List Bool) (ids : List (List Int)) : List (List Int) :=
  List.zipWith (fun m slots => if m then slots else slots.map fun _ => IGNORE_TOKEN_ID)
    mask ids

/-- Mask rows whose true entries form a contiguous left-aligned block: the
    collator invariant that the spec states for attention-mask rows. -/
def leftAligned : List Bool → Bool
  | [] => true
  | true :: rest => leftAligned rest
  | false :: rest => rest.all fun b => !b

/-- Element access in one row's 2-d grid, by time step and codebook slot. -/
def gridGet (g : List (List Int)) (t q : Nat) : Option Int :=
  g[t]?.bind fun slots => slots[q]?

theorem leftAligned_append_false_get (m : List Bool) (h : leftAligned m = true) :
    (m ++ [false])[m.count true]? = some false := by
  induction m with
  | nil => simp
  | cons b rest ih =>
    cases b with
    | true =>
      simp only [leftAligned] at h
      have := ih h
      simpa [List.count_cons] using this
    | false =>
      simp only [leftAligned] at h
      have hz : rest.count true = 0 := by
        rw [List.count_eq_zero]
        intro hmem
        have := List.all_eq_true.mp h true hmem
        simp at this
      simp [List.count_cons, hz]

theorem count_true_set_of_false (l : List Bool) (n : Nat) (h : l[n]? = some false) :
    (l.set n true).count true = l.count true + 1 := by
  induction l generalizing n with
  | nil => simp at h
  | cons b rest ih =>
    cases n with
    | zero =>
      simp only [List.getElem?_cons_zero, Option.some_inj] at h
      subst h
      simp [List.count_cons]
    | succ k =>
      simp only [List.getElem?_cons_succ] at h
      simp only [List.set, List.count_cons, ih k h]
      omega

theorem extendMaskRow_count (m : List Bool) (h : leftAligned m = true) :
    (extendMaskRow m).count true = m.count true + 1 := by
  unfold extendMaskRow
  rw [count_true_set_of_false _ _ (leftAligned_append_false_get m h)]
  simp

/-- Claim C3: the sequence assembler places the end-of-audio marker at the index
    equal to the row's count of true audio-mask entries: at that per-row index the
    extended mask is set true and the extended ids hold the eos marker in every
    codebook slot; a row with zero valid frames (all-false mask) places the marker
    at index 0 of the audio segment. -/
theorem eos_marker_at_valid_frame_count (numVq : Nat) (mask : List Bool)
    (ids : List (List Int)) (hlen : ids.length = mask.length) :
    (extendMaskRow mask)[mask.count true]? = some true
    ∧ (extendIdsRow numVq mask ids)[mask.count true]?
        = some (List.replicate numVq AUDIO_EOS_TOKEN_ID)
    ∧ ((∀ b ∈ mask, b = false) → (extendMaskRow mask)[0]? = some true) := by
  have hle : mask.count true ≤ mask.length := List.count_le_length _ _
  have hmask : (extendMaskRow mask)[mask.count true]? = some true := by
    unfold extendMaskRow
    exact List.getElem?_set_self (by simp; omega)
  refine ⟨hmask, ?_, fun hall => ?_⟩
  · unfold extendIdsRow
    exact List.getElem?_set_self (by simp [hlen]; omega)
  · have hz : mask.count true = 0 := by
      rw [List.count_eq_zero]
      intro hmem
      exact absurd (hall true hmem) (by simp)
    exact hz ▸ hmask

theorem eos_marker_at_valid_frame_count_witness :
    ([[5], [6]] : List (List Int)).length = [true, false].length
    ∧ ((extendMaskRow [true, false])[([true, false].count true)]? = some true
       ∧ (extendIdsRow 1 [true, false] [[5], [6]])[([true, false].count true)]?
           = some (List.replicate 1 AUDIO_EOS_TOKEN_ID)
       ∧ ((∀ b ∈ [true, false], b = false) → (extendMaskRow [true, false])[0]? = some true)) :=
  ⟨rfl, eos_marker_at_valid_frame_count 1 [true, false] [[5], [6]] rfl⟩

/-- Claim C4: for rows whose text and audio masks are left-aligned, the combined
    attention-mask row built by the assembler has exactly
    (text true-count) + (audio true-count) + 1 true entries: the one extra true
    entry is the added end marker. -/
theorem combined_mask_count (textMask audioMask : List Bool)
    (ht : leftAligned textMask = true) (ha : leftAligned audioMask = true) :
    (combineMaskRow textMask (extendMaskRow audioMask)).count true
      = textMask.count true + audioMask.count true + 1 := by
  unfold combineMaskRow
  rw [List.count_append, extendMaskRow_count audioMask ha]
  omega

theorem combined_mask_count_witness :
    leftAligned [true] = true ∧ leftAligned [true, false] = true
    ∧ (combineMaskRow [true] (extendMaskRow [true, false])).count true
        = [true].count true + [true, false].count true + 1 :=
  ⟨by decide, by decide, combined_mask_count [true] [true, false] (by decide) (by decide)⟩

/-- Claim C5: the label grid equals the combined-id grid at every (time step,
    codebook slot) position whose combined attention mask entry is true, and
    equals the ignore sentinel at every position whose mask entry is false. -/
theorem labels_match_mask (mask : List Bool) (ids : List (List Int)) (t q : Nat)
    (m : Bool) (v : Int) (hm : mask[t]? = some m) (hv : gridGet ids t q = some v) :
    gridGet (labelsRow mask ids) t q = some (if m then v else IGNORE_TOKEN_ID) := by
  unfold gridGet at hv ⊢
  obtain ⟨slots, hslots, hq⟩ := Option.bind_eq_some.mp hv
  unfold labelsRow
  rw [List.getElem?_zipWith', hm, hslots]
  cases m with
  | true => simpa using hq
  | false =>
    have hqlt : q < slots.length := (List.getElem?_eq_some.mp hq).1
    simp [List.getElem?_map, hq, hqlt]

theorem labels_match_mask_witness :
    ([false] : List Bool)[0]? = some false ∧ gridGet [[3]] 0 0 = some 3
    ∧ gridGet (labelsRow [false] [[3]]) 0 0 = some (if false then 3 else IGNORE_TOKEN_ID) :=
  ⟨rfl, rfl, labels_match_mask [false] [[3]] 0 0 false 3 rfl rfl⟩

/-- Cross-entropy with mean reduction over a flat list of (class scores, target)
    pairs: pairs whose target equals the ignore sentinel are excluded; the
    per-element loss is the abstract function elemLoss (torch computes a
    negative log softmax there, a floating-point map no claim inspects).
    Mirrors torch.nn.CrossEntropyLoss() as used at finetune.py
    lines 179, 284 and 288. -/
def ceMean (elemLoss : List ℚ → Int → ℚ) (pairs : List (List ℚ × Int)) : ℚ :=
  let valid := pairs.filter fun p => p.2 != IGNORE_TOKEN_ID
  (valid.map fun p => elemLoss p.1 p.2).sum / valid.length

/-- finetune.py line 284: the audio loss is ONE cross-entropy call on the
    jointly flattened (row, time, codebook) axes: audio_logits.flatten(0, 2)
    paired against labels[:, text_len:].flatten(0, 2). logits is indexed
    (row, time, codebook) to class scores; labels (row, time, codebook) to id. -/
def audioLossCode (elemLoss : List ℚ → Int → ℚ)
    (logits : List (List (List (List ℚ)))) (labels : List (List (List Int))) : ℚ :=
  ceMean elemLoss (logits.flatten.flatten.zip labels.flatten.flatten)

/-- Alternative stated from the spec's words only for contrast (the spec asserts
    the code does NOT do this): audio loss summed independently per codebook,
    one cross-entropy mean per codebook slot over all (row, time) positions,
    then summed over the numVq slots. -/
def audioLossPerCodebook (elemLoss : List ℚ → Int → ℚ) (numVq : Nat)
    (logits : List (List (List (List ℚ)))) (labels : List (List (List Int))) : ℚ :=
  ((List.range numVq).map fun q =>
    ceMean elemLoss ((logits.flatten.filterMap fun slots => slots[q]?).zip
      (labels.flatten.filterMap fun slots => slots[q]?))).sum

/-- finetune.py lines 284-297: loss accumulation of one sequence-stage batch:
    start from the audio loss, add the text loss when train_text is set
    (line 289, coefficient 1), then add 0.01 times the mse reconstruction loss
    (line 297). The text and mse losses enter as scalars here. -/
def sequenceLoss (elemLoss : List ℚ → Int → ℚ) (train_text : Bool)
    (logits : List (List (List (List ℚ)))) (labels : List (List (List Int)))
    (text_loss mse_loss : ℚ) : ℚ :=
  let audio_loss := audioLossCode elemLoss logits labels
  let loss := audio_loss
  let loss := if train_text then loss + text_loss else loss
  loss + 1 / 100 * mse_loss

/-- Concrete per-element loss used for the joint-versus-per-codebook contrast. -/
def exElemLoss : List ℚ → Int → ℚ := fun _ t => (t : ℚ)

/-- Concrete 1-row, 1-time-step, 2-codebook grid of class scores. -/
def exLogits : List (List (List (List ℚ))) := [[[[0], [0]]]]

/-- Concrete labels of the same shape. -/
def exLabels : List (List (List Int)) := [[[1, 2]]]

/-- Claim C6: the batch total loss equals the audio cross-entropy loss, plus the
    text loss exactly when the text flag is set (weight 1), plus 0.01 times the
    mel reconstruction loss; the audio loss is the single flattened cross-entropy
    over all codebook slots and time steps jointly, which differs from the
    per-codebook independent summation, as the concrete grid witnesses. -/
theorem total_loss_composition (elemLoss : List ℚ → Int → ℚ) (train_text : Bool)
    (logits : List (List (List (List ℚ)))) (labels : List (List (List Int)))
    (text_loss mse_loss : ℚ) :
    sequenceLoss elemLoss train_text logits labels text_loss mse_loss
      = audioLossCode elemLoss logits labels
        + (if train_text then text_loss else 0) + 1 / 100 * mse_loss
    ∧ audioLossCode elemLoss logits labels
        = ceMean elemLoss (logits.flatten.flatten.zip labels.flatten.flatten)
    ∧ audioLossCode exElemLoss exLogits exLabels
        ≠ audioLossPerCodebook exElemLoss 2 exLogits exLabels := by
  refine ⟨?_, rfl, ?_⟩
  · unfold sequenceLoss
    cases train_text <;> simp
  · norm_num [audioLossCode, audioLossPerCodebook, ceMean, exElemLoss, exLogits,
      exLabels, IGNORE_TOKEN_ID, List.range_succ, List.filterMap_cons, List.filterMap_nil]

/-- finetune.py line 277, one batch row: text_hidden_states is
    hidden_states[:, :text_len-1], the first text_len-1 positions, that is the
    indices 0 up to text_len-2. -/
def textHiddenStatesCode (text_len : Nat) (hs : List ℚ) : List ℚ :=
  hs.take (text_len - 1)

/-- Stated from the spec's words only for contrast: the hidden states at the
    positions 1 up to text_len-1. -/
def specTextHiddenSlice (text_len : Nat) (hs : List ℚ) : List ℚ :=
  (hs.drop 1).take (text_len - 1)

/-- finetune.py line 288, one batch row: labels[:, 1:text_len, 0], the label
    grid at positions 1 up to text_len-1, codebook slot 0. -/
def textLabelSliceCode (text_len : Nat) (labels : List (List Int)) : List Int :=
  ((labels.drop 1).take (text_len - 1)).map List.headI

/-- finetune.py lines 287-288, one batch row: project the sliced hidden states
    through head_text and take cross-entropy against the sliced labels. -/
def textLossCode (elemLoss : List ℚ → Int → ℚ) (head : ℚ → List ℚ) (text_len : Nat)
    (hs : List ℚ) (labels : List (List Int)) : ℚ :=
  ceMean elemLoss (((textHiddenStatesCode text_len hs).map head).zip
    (textLabelSliceCode text_len labels))

/-- Claim C7 counterexample: at text_len 3 on the concrete hidden-state row
    [10, 20, 30, 40], the hidden states the code projects (the first two
    positions, indices 0 and 1) are not the positions 1 up to text_len-1 that
    the claim asserts. -/
theorem text_slice_counterexample :
    textHiddenStatesCode 3 [(10 : ℚ), 20, 30, 40]
      ≠ specTextHiddenSlice 3 [(10 : ℚ), 20, 30, 40] := by decide

/-- Claim C7 (amended): when the text flag is set, the loss router projects the
    text hidden states at positions 0 up to text_len-2 (the first text_len-1
    positions, which predict the tokens at positions 1 up to text_len-1) to
    vocabulary logits and computes cross-entropy against the shifted text labels
    at positions 1 up to text_len-1 of the label grid's first codebook slot; the
    ignore sentinel is respected (an ignored pair contributes nothing) and the
    result is added to the total loss with weight 1. -/
theorem text_loss_amended (elemLoss : List ℚ → Int → ℚ) (head : ℚ → List ℚ)
    (text_len : Nat) (hs : List ℚ) (labels : List (List Int)) (i : Nat)
    (v : List ℚ) (ps : List (List ℚ × Int))
    (logits : List (List (List (List ℚ)))) (aLabels : List (List (List Int)))
    (mse_loss : ℚ) (hi : i < text_len - 1) :
    (textHiddenStatesCode text_len hs)[i]? = hs[i]?
    ∧ (textLabelSliceCode text_len labels)[i]? = (labels[i + 1]?).map List.headI
    ∧ ceMean elemLoss (ps ++ [(v, IGNORE_TOKEN_ID)]) = ceMean elemLoss ps
    ∧ sequenceLoss elemLoss true logits aLabels
        (textLossCode elemLoss head text_len hs labels) mse_loss
      = audioLossCode elemLoss logits aLabels
        + textLossCode elemLoss head text_len hs labels + 1 / 100 * mse_loss := by
  refine ⟨?_, ?_, ?_, ?_⟩
  · unfold textHiddenStatesCode
    rw [List.getElem?_take, if_pos hi]
  · unfold textLabelSliceCode
    rw [List.getElem?_map, List.getElem?_take, if_pos hi, List.getElem?_drop,
      Nat.add_comm]
  · unfold ceMean
    simp [List.filter_append]
  · unfold sequenceLoss
    simp

theorem text_loss_amended_witness :
    (0 : Nat) < 3 - 1
    ∧ ((textHiddenStatesCode 3 [(10 : ℚ), 20, 30])[0]? = [(10 : ℚ), 20, 30][0]?
       ∧ (textLabelSliceCode 3 [[7], [8], [9]])[0]?
           = (([[7], [8], [9]] : List (List Int))[0 + 1]?).map List.headI
       ∧ ceMean exElemLoss ([] ++ [([0], IGNORE_TOKEN_ID)]) = ceMean exElemLoss []
       ∧ sequenceLoss exElemLoss true exLogits exLabels
           (textLossCode exElemLoss (fun x => [x]) 3 [(10 : ℚ), 20, 30] [[7], [8], [9]]) 0
         = audioLossCode exElemLoss exLogits exLabels
           + textLossCode exElemLoss (fun x => [x]) 3 [(10 : ℚ), 20, 30] [[7], [8], [9]]
           + 1 / 100 * 0) :=
  ⟨by decide,
    text_loss_amended exElemLoss (fun x => [x]) 3 [(10 : ℚ), 20, 30] [[7], [8], [9]] 0
      [0] [] exLogits exLabels 0 (by decide)⟩

/-- Elementwise affine statistic map of finetune.py line 162: the vector v is
    mapped to v * std + mean, where std and mean are the two halves of the
    spk_stat tensor split at line 161. -/
def affineStat (std mean v : List ℚ) : List ℚ :=
  List.zipWith (· + ·) (List.zipWith (· * ·) v std) mean

/-- finetune.py lines 153-159: the speaker table is the dict comprehension of
    freshly drawn vectors for every dataset speaker, right-merged with the
    externally supplied table, whose entries override. Randomness enters as the
    abstract draw map. -/
def initTable (speakers : List String) (draw : String → List ℚ)
    (supplied : String → Option (List ℚ)) (s : String) : Option (List ℚ) :=
  match supplied s with
  | some v => some v
  | none => if s ∈ speakers then some (draw s) else none

/-- finetune.py lines 153-162: after the merge, the affine statistic map is
    applied in place to every value of the merged table (the loop of
    lines 160-162 runs over all values). -/
def speakerEmbedsInit (speakers : List String) (draw : String → List ℚ)
    (supplied : String → Option (List ℚ)) (std mean : List ℚ) (s : String) :
    Option (List ℚ) :=
  (initTable speakers draw supplied s).map (affineStat std mean)

/-- Claim C8 counterexample: with the externally supplied vector [1] for speaker
    a, std [2] and mean [3], the table entry entering training is [5] = [1*2+3],
    not the supplied [1]: the affine normalisation is applied to externally
    supplied entries too, so a supplied vector does not enter training
    unchanged. -/
theorem supplied_embed_transformed :
    speakerEmbedsInit ["a"] (fun _ => [0])
      (fun s => if s = "a" then some [1] else none) [2] [3] "a" ≠ some [1] := by
  norm_num [speakerEmbedsInit, initTable, affineStat]

/-- Claim C8 (amended): externally supplied entries override the freshly drawn
    ones and dataset speakers not supplied externally get freshly drawn vectors,
    but the affine normalisation by the global std/mean statistics is applied to
    every entry of the merged table, the externally supplied ones included: a
    supplied vector v enters training as v * std + mean, not unchanged. -/
theorem speaker_table_merge_amended (speakers : List String)
    (draw : String → List ℚ) (supplied : String → Option (List ℚ))
    (std mean : List ℚ) (s : String) :
    speakerEmbedsInit speakers draw supplied std mean s
      = match supplied s with
        | some v => some (affineStat std mean v)
        | none =>
            if s ∈ speakers then some (affineStat std mean (draw s)) else none := by
  unfold speakerEmbedsInit initTable
  cases supplied s with
  | some v => rfl
  | none => by_cases hmem : s ∈ speakers <;> simp [hmem]

/-- finetune.py lines 267-274, one batch row: position t of the input-embedding
    row is replaced by the L2-normalised speaker vector (the normalisation is
    the abstract map nrm) exactly when all codebook slots of the combined ids at
    t equal the speaker token id (torch.all over the last axis at line 267). -/
def speakerReplaceRow (spkTok : Int) (nrm : List ℚ → List ℚ)
    (ids : List (List Int)) (embeds : List (List ℚ)) (spkEmb : List ℚ) :
    List (List ℚ) :=
  List.zipWith
    (fun slots emb => if slots.all fun x => x == spkTok then nrm spkEmb else emb)
    ids embeds

/-- Claim C10: a position's input embedding is replaced by the normalised
    speaker vector of the row's speaker if and only if the combined ids at that
    position equal the speaker token id in all codebook slots simultaneously; a
    position matching in only some slots keeps its original embedding. -/
theorem speaker_embed_replacement (spkTok : Int) (nrm : List ℚ → List ℚ)
    (ids : List (List Int)) (embeds : List (List ℚ)) (spkEmb : List ℚ)
    (t : Nat) (slots : List Int) (emb : List ℚ)
    (hid : ids[t]? = some slots) (hemb : embeds[t]? = some emb) :
    (speakerReplaceRow spkTok nrm ids embeds spkEmb)[t]?
      = some (if ∀ x ∈ slots, x = spkTok then nrm spkEmb else emb) := by
  unfold speakerReplaceRow
  rw [List.getElem?_zipWith', hid, hemb]
  simp only [Option.map_some', Option.some_bind, Option.some_inj]
  by_cases hall : ∀ x ∈ slots, x = spkTok
  · rw [if_pos hall, if_pos]
    rw [List.all_eq_true]
    intro x hx
    simp [hall x hx]
  · rw [if_neg hall, if_neg]
    intro hcon
    apply hall
    intro x hx
    have := List.all_eq_true.mp hcon x hx
    simpa using this

theorem speaker_embed_replacement_witness :
    ([[9, 9], [9, 4]] : List (List Int))[0]? = some [9, 9]
    ∧ ([[(1 : ℚ)], [2]] : List (List ℚ))[0]? = some [1]
    ∧ (speakerReplaceRow 9 (fun v => v) [[9, 9], [9, 4]] [[1], [2]] [5])[0]?
        = some (if ∀ x ∈ ([9, 9] : List Int), x = 9 then (fun v => v) [(5 : ℚ)] else [1]) :=
  ⟨rfl, rfl,
    speaker_embed_replacement 9 (fun v => v) [[9, 9], [9, 4]] [[1], [2]] [5] 0 [9, 9] [1]
      rfl rfl⟩

/-- Training-mode selector of finetune.py lines 30-37. -/
inductive TrainModule where
  | gpt_speaker
  | gpt
  | speaker
  | autoencoder
  | encoder
  | decoder
deriving DecidableEq

/-- Train/eval flag and gradient flag of a torch module. -/
structure ModuleMode where
  training : Bool
  requiresGrad : Bool
deriving DecidableEq

/-- finetune.py lines 147-151: mode of the gpt module inside train_gpt: eval and
    frozen for speaker-only runs, training with gradients enabled otherwise. -/
def gptModuleMode : TrainModule → ModuleMode
  | TrainModule.speaker => ⟨false, false⟩
  | _ => ⟨true, true⟩

/-- finetune.py line 157: the requires_grad flag of the freshly drawn speaker
    vectors, set for the gpt_speaker and speaker modes. -/
def speakerEmbedsRequireGrad : TrainModule → Bool
  | TrainModule.gpt_speaker => true
  | TrainModule.speaker => true
  | _ => false

/-- One optimizer parameter group: the parameter set (abstract parameter ids)
    and its learning rate. -/
structure ParamGroup where
  params : List Nat
  lr : ℚ
deriving DecidableEq

/-- finetune.py lines 168-177, the train_params binding of the sequence-stage
    match: every reachable arm binds it. -/
def gptTrainParams (gptParams speakerParams : List Nat) :
    TrainModule → Option (List Nat)
  | TrainModule.gpt_speaker => some (gptParams ++ speakerParams)
  | TrainModule.gpt => some gptParams
  | TrainModule.speaker => some speakerParams
  | _ => none

/-- finetune.py lines 168-177, the optimizer binding of the same match,
    transcribed arm by arm: the gpt_speaker arm builds Adam over the gpt
    parameters at lr 1e-3 and adds a speaker group at lr 1e-1 (lines 171-172);
    the speaker arm builds Adam over the speaker vectors at lr 1e-2 (line 177);
    the gpt arm's body (line 174) assigns train_params only and never assigns
    optimizer, so no optimizer value exists in that arm. -/
def gptOptimizerGroups (gptParams speakerParams : List Nat) :
    TrainModule → Option (List ParamGroup)
  | TrainModule.gpt_speaker =>
      some [⟨gptParams, 1 / 1000⟩, ⟨speakerParams, 1 / 10⟩]
  | TrainModule.gpt => none
  | TrainModule.speaker => some [⟨speakerParams, 1 / 100⟩]
  | _ => none

/-- Claim C1 (code bug it exposes): the joint and speaker-only arms of the match
    at finetune.py lines 168-177 produce an optimizer whose groups cover exactly
    that mode's trainable parameter set, and the gpt module is in training mode
    with gradients in the gpt mode as claimed; but the model-only gpt arm binds
    train_params and leaves the optimizer local unbound, so line 180 (the
    scheduler construction, which reads the optimizer) raises UnboundLocalError
    before any batch is processed: no optimizer over the gpt parameters is ever
    constructed in the gpt mode. -/
theorem gpt_mode_has_no_optimizer (gptParams speakerParams : List Nat) :
    gptTrainParams gptParams speakerParams TrainModule.gpt = some gptParams
    ∧ gptOptimizerGroups gptParams speakerParams TrainModule.gpt = none
    ∧ gptModuleMode TrainModule.gpt = ⟨true, true⟩
    ∧ gptModuleMode TrainModule.speaker = ⟨false, false⟩
    ∧ (gptOptimizerGroups gptParams speakerParams TrainModule.gpt_speaker).map
        (fun gs => (gs.map ParamGroup.params).flatten) = some (gptParams ++ speakerParams)
    ∧ (gptOptimizerGroups gptParams speakerParams TrainModule.gpt_speaker).map
        (fun gs => (gs.map ParamGroup.params).flatten)
        = gptTrainParams gptParams speakerParams TrainModule.gpt_speaker
    ∧ (gptOptimizerGroups gptParams speakerParams TrainModule.speaker).map
        (fun gs => (gs.map ParamGroup.params).flatten)
        = gptTrainParams gptParams speakerParams TrainModule.speaker := by
  refine ⟨rfl, rfl, rfl, rfl, by simp [gptOptimizerGroups], by simp [gptOptimizerGroups,
    gptTrainParams], by simp [gptOptimizerGroups, gptTrainParams]⟩

/-- Torch module instance: a Python object identity together with its current
    weight values. -/
structure TorchObj where
  oid : Nat
  weights : List ℚ
deriving DecidableEq

/-- finetune.py line 55 inside train_autoencoder: the local name of the encoder
    argument is immediately rebound to a newly constructed DVAEEncoder,
    shadowing the instance the caller passed; the optimizer of lines 59-75 holds
    the fresh instance's parameters, so the batch updates (the abstract update
    map) apply to the fresh instance and the passed instance is never updated.
    The pair returned is (the object the caller still references afterwards,
    the object the loop actually trained). -/
def trainAutoencoderEncoders (passed : TorchObj) (freshOid : Nat)
    (freshInit : List ℚ) (update : List ℚ → List ℚ) : TorchObj × TorchObj :=
  let fresh : TorchObj := ⟨freshOid, freshInit⟩
  (passed, ⟨fresh.oid, update fresh.weights⟩)

/-- finetune.py lines 468-479 in main: for encoder-training runs the checkpoint
    written under the save folder is the state dict of the encoder object main
    constructed and passed into train_autoencoder. -/
def savedEncoder (passed : TorchObj) (freshOid : Nat) (freshInit : List ℚ)
    (update : List ℚ → List ℚ) : TorchObj :=
  (trainAutoencoderEncoders passed freshOid freshInit update).1

/-- Claim C2 (code bug it exposes): the encoder blob main saves is the passed-in
    instance with its weights untouched by the run, while the instance the
    optimizer actually updated is the distinct freshly constructed one (a fresh
    Python object is distinct from every pre-existing object, the hypothesis
    here): the saved sub-module is not the trained sub-module. -/
theorem saved_encoder_is_not_trained (passed : TorchObj) (freshOid : Nat)
    (freshInit : List ℚ) (update : List ℚ → List ℚ)
    (hfresh : freshOid ≠ passed.oid) :
    savedEncoder passed freshOid freshInit update = passed
    ∧ (trainAutoencoderEncoders passed freshOid freshInit update).2.oid
        ≠ (savedEncoder passed freshOid freshInit update).oid
    ∧ (trainAutoencoderEncoders passed freshOid freshInit update).2.weights
        = update freshInit :=
  ⟨rfl, by simpa [savedEncoder, trainAutoencoderEncoders] using hfresh, rfl⟩

theorem saved_encoder_is_not_trained_witness :
    (1 : Nat) ≠ (TorchObj.mk 0 []).oid
    ∧ (savedEncoder ⟨0, []⟩ 1 [] (fun w => w) = ⟨0, []⟩
       ∧ (trainAutoencoderEncoders ⟨0, []⟩ 1 [] (fun w => w)).2.oid
           ≠ (savedEncoder ⟨0, []⟩ 1 [] (fun w => w)).oid
       ∧ (trainAutoencoderEncoders ⟨0, []⟩ 1 [] (fun w => w)).2.weights
           = (fun w => w) ([] : List ℚ)) :=
  ⟨by decide, saved_encoder_is_not_trained ⟨0, []⟩ 1 [] (fun w => w) (by decide)⟩

/-- DVAE decoder state seen by train_autoencoder: its weights together with its
    vq_layer attribute (an object reference, or None). -/
structure DVAEState where
  weights : List ℚ
  vq_layer : Option Nat
deriving DecidableEq

/-- finetune.py lines 79-80: the vq layer object is saved into a local and the
    decoder attribute is set to None before the training loop. -/
def vqDetach (d : DVAEState) : Option Nat × DVAEState :=
  (d.vq_layer, { d with vq_layer := none })

/-- finetune.py lines 79-117: detach the vq layer, run the epochs loop, which
    only updates module weights (the abstract loopUpdate map), then restore the
    saved vq layer object onto the decoder at line 117 before returning. -/
def trainAutoencoderRun (d : DVAEState) (loopUpdate : List ℚ → List ℚ) :
    DVAEState :=
  let saved := vqDetach d
  let afterLoop : DVAEState := { saved.2 with weights := loopUpdate saved.2.weights }
  { afterLoop with vq_layer := saved.1 }

/-- Claim C9: train_autoencoder detaches the decoder's vq layer (sets it to
    None) for the duration of the training loop and restores the original
    object before returning: the decoder state the loop sees has no vq layer,
    and for every invocation that runs to completion the decoder's final
    vq_layer equals the one at entry, while the weight updates still apply. -/
theorem vq_layer_restored (d : DVAEState) (loopUpdate : List ℚ → List ℚ) :
    (vqDetach d).2.vq_layer = none
    ∧ (trainAutoencoderRun d loopUpdate).vq_layer = d.vq_layer
    ∧ (trainAutoencoderRun d loopUpdate).weights = loopUpdate d.weights :=
  ⟨rfl, rfl, rfl⟩

end Finetune
